import Mathlib

/-!
Shallow embedding of the garment-bot style store (`database_setup.py`) and the
policy helpers in `app.py` (bulk diff, CSV balance, quantity parsing, reminder
targeting), together with theorems settling the frozen claims about them.

The TinyDB table is modelled as an association list from document ids to style
records, with a fresh-id counter (TinyDB doc ids start at 1 and increase).
Python integers are `Int`; optional fields are `Option`; all helpers that
silently ignore a missing record return the store unchanged.
-/

namespace Garment

/-- A style record, with the exact fields inserted by `add_style` in
`database_setup.py` (`created_at` is kept abstract as a `Nat` tick). -/
structure Style where
  merchant : String
  brand : String
  style_no : String
  garment : String
  colour : String
  stage : Int
  active : Bool
  created_at : Nat
  bulk_eta : Option String := none
  acc_barcode : Option String := none
  acc_trims : Option String := none
  acc_washcare : Option String := none
  acc_other : Option String := none
  cut_qty : Option Int := none
  stitch_qty : Option Int := none
  finish_qty : Option Int := none
  pack_qty : Option Int := none
  total_qty : Option Int := none
  dispatch_date : Option String := none
  deriving Repr, DecidableEq

/-- The TinyDB `styles` table: documents keyed by id, plus the next fresh id. -/
structure Store where
  next_id : Nat
  docs : List (Nat × Style)
  deriving Repr, DecidableEq

/-- A fresh database; TinyDB assigns doc ids starting from 1. -/
def Store.empty : Store := { next_id := 1, docs := [] }

/-- Point lookup by key in an association list (TinyDB `get(doc_id=...)`). -/
def assocFind {α : Type} (docs : List (Nat × α)) (id : Nat) : Option α :=
  match docs with
  | [] => none
  | (k, a) :: rest => if k = id then some a else assocFind rest id

/-- `get_style_by_id`: fetch a single style, `none` when absent. -/
def Store.get (s : Store) (id : Nat) : Option Style := assocFind s.docs id

/-- Replace the document with the given id (TinyDB `update(..., doc_ids=[id])`;
doc ids are unique, so only the first—and only—match is rewritten). -/
def modifyDoc (docs : List (Nat × Style)) (id : Nat) (f : Style → Style) :
    List (Nat × Style) :=
  match docs with
  | [] => []
  | (k, a) :: rest =>
      if k = id then (k, f a) :: rest else (k, a) :: modifyDoc rest id f

/-- `add_style`: insert a new style with stage 0, active, all optional fields
absent except the passed `total_qty` and `dispatch_date`; returns the new id. -/
def add_style (s : Store) (merchant brand style_no garment colour : String)
    (total_qty : Option Int) (dispatch_date : Option String) (created_at : Nat) :
    Store × Nat :=
  ({ next_id := s.next_id + 1,
     docs := s.docs ++
       [(s.next_id,
         { merchant := merchant, brand := brand, style_no := style_no,
           garment := garment, colour := colour, stage := 0, active := true,
           created_at := created_at, total_qty := total_qty,
           dispatch_date := dispatch_date })] },
   s.next_id)

/-- `update_style_stage`: set the stage; Dispatch (13) also deactivates.
Silently a no-op when the id is absent. -/
def update_style_stage (s : Store) (style_id : Nat) (stage : Int) : Store :=
  match s.get style_id with
  | none => s
  | some _ =>
      { s with docs := modifyDoc s.docs style_id (fun doc =>
          { doc with stage := stage,
                     active := if stage = 13 then false else doc.active }) }

/-- `update_style_quantities`: only provided quantity fields are overwritten
(argument order follows the Python signature). No-op when the id is absent. -/
def update_style_quantities (s : Store) (style_id : Nat)
    (stitch_qty finish_qty pack_qty cut_qty : Option Int) : Store :=
  match s.get style_id with
  | none => s
  | some _ =>
      { s with docs := modifyDoc s.docs style_id (fun doc =>
          { doc with
            cut_qty := match cut_qty with | some v => some v | none => doc.cut_qty,
            stitch_qty := match stitch_qty with | some v => some v | none => doc.stitch_qty,
            finish_qty := match finish_qty with | some v => some v | none => doc.finish_qty,
            pack_qty := match pack_qty with | some v => some v | none => doc.pack_qty }) }

/-- `delete_style`: soft archive; returns whether anything changed. -/
def delete_style (s : Store) (style_id : Nat) : Store × Bool :=
  match s.get style_id with
  | some doc =>
      if doc.active then
        ({ s with docs := modifyDoc s.docs style_id (fun d => { d with active := false }) },
         true)
      else (s, false)
  | none => (s, false)

/-- `restore_style`: reactivate an archived style; returns whether anything
changed. -/
def restore_style (s : Store) (style_id : Nat) : Store × Bool :=
  match s.get style_id with
  | some doc =>
      if doc.active then (s, false)
      else
        ({ s with docs := modifyDoc s.docs style_id (fun d => { d with active := true }) },
         true)
  | none => (s, false)

/-- Modelled from the spec: `update_style_info` is imported by `app.py` from
`database_setup` and called by `handle_edit_style_submit`, but its definition
is absent from `src/database_setup.py`.  Per the spec it is a field-level
overwrite of only the provided values among brand, style_no, garment, colour,
total_qty and dispatch_date, a silent no-op when the id is absent. -/
def update_style_info (s : Store) (style_id : Nat)
    (brand style_no garment colour : Option String)
    (total_qty : Option Int) (dispatch_date : Option String) : Store :=
  match s.get style_id with
  | none => s
  | some _ =>
      { s with docs := modifyDoc s.docs style_id (fun doc =>
          { doc with
            brand := match brand with | some v => v | none => doc.brand,
            style_no := match style_no with | some v => v | none => doc.style_no,
            garment := match garment with | some v => v | none => doc.garment,
            colour := match colour with | some v => v | none => doc.colour,
            total_qty := match total_qty with | some v => some v | none => doc.total_qty,
            dispatch_date := match dispatch_date with | some v => some v | none => doc.dispatch_date }) }

/-- The "flow" stages of `save_bulk_update` / `save_stage_update`:
Cutting sheet (8), Inline (9), Stitching (10), Finishing (11), Packing (12). -/
def flowStages : List Int := [8, 9, 10, 11, 12]

/-- The diff portion of `save_bulk_update` (app.py): walk the requested
`style_id -> new_stage` changes, drop any whose style is absent or whose stage
already equals the requested one, and collect the remainder as
`desired_changes` together with the `flow_changes` subset whose new stage is a
flow stage.  (The Python code additionally carries brand/style_no inside each
flow entry for display; the partitioning is what is modelled.) -/
def bulk_diff (s : Store) : List (Nat × Int) → List (Nat × Int) × List (Nat × Int)
  | [] => ([], [])
  | (style_id, new_stage) :: rest =>
      let acc := bulk_diff s rest
      match s.get style_id with
      | none => acc
      | some sty =>
          if sty.stage = new_stage then acc
          else
            ((style_id, new_stage) :: acc.1,
             if new_stage ∈ flowStages then (style_id, new_stage) :: acc.2 else acc.2)

/-- `balance` from `export_csv` (app.py): with both values present, return ""
(here `none`) when either is non-positive, else `total - qty` floored at 0;
any absent value (Python `int(None)` raising) also yields "". -/
def balance (total qty : Option Int) : Option Int :=
  match total, qty with
  | some t, some q =>
      if t ≤ 0 ∨ q ≤ 0 then none
      else some (if t - q ≥ 0 then t - q else 0)
  | _, _ => none

/-- Python `str.strip()` over the character sequence: drop whitespace from
both ends. -/
def pyStrip (s : String) : List Char :=
  ((s.data.dropWhile Char.isWhitespace).reverse.dropWhile Char.isWhitespace).reverse

/-- Digit-string payload of Python `int(str)`: all characters must be decimal
digits and there must be at least one. -/
def parseDigits (cs : List Char) : Option Nat :=
  if cs = [] then none
  else if cs.all Char.isDigit then
    some (cs.foldl (fun n c => 10 * n + (c.toNat - 48)) 0)
  else none

/-- Python `int(str)`: surrounding whitespace is ignored, an optional single
sign precedes the digits, anything else raises (modelled as `none`). -/
def pyParseInt (s : String) : Option Int :=
  match pyStrip s with
  | '-' :: rest => (parseDigits rest).map (fun n => -(n : Int))
  | '+' :: rest => (parseDigits rest).map (fun n => (n : Int))
  | cs => (parseDigits cs).map (fun n => (n : Int))

/-- `_to_int` (app.py, repeated in each submit handler): `None` or blank input
is "not provided"; otherwise parse as an integer, with parse failure caught and
also mapped to "not provided". -/
def toInt (v : Option String) : Option Int :=
  match v with
  | none => none
  | some s => if pyStrip s = [] then none else pyParseInt s

/-- A Slack directory entry as consulted by `send_daily_reminder`
(`users_list` members keyed by id; only these two flags are read). -/
structure Member where
  deleted : Bool
  is_bot : Bool
  deriving Repr, DecidableEq

/-- String-keyed point lookup (the `id_to_member` dict in
`send_daily_reminder`; `dict.get(uid, {})` with an absent id makes the
`m.get("id") is None` guard skip the user, so absence means "not a target"). -/
def memberFind (directory : List (String × Member)) (uid : String) : Option Member :=
  match directory with
  | [] => none
  | (k, m) :: rest => if k = uid then some m else memberFind rest uid

/-- The target set of `send_daily_reminder` (app.py): nothing is sent when the
merchant usergroup resolves empty; otherwise each usergroup member id is kept
unless the directory lacks it or flags it deleted or bot.  The Python loop
iterates in sorted order purely for presentation; membership is what is
modelled.  The style store is never consulted. -/
def reminderTargets (member_ids : List String) (directory : List (String × Member)) :
    List String :=
  if member_ids.isEmpty then []
  else
    member_ids.filter (fun uid =>
      match memberFind directory uid with
      | none => false
      | some m => !m.deleted && !m.is_bot)

/-- All store operations exposed by `database_setup.py` (with the
spec-modelled `update_style_info`), applied in any order from an empty
database: the reachable states of the style table. -/
inductive Reachable : Store → Prop where
  | init : Reachable Store.empty
  | add (s : Store) (m b sn g c : String) (tq : Option Int) (dd : Option String)
      (t : Nat) : Reachable s → Reachable (add_style s m b sn g c tq dd t).1
  | stage (s : Store) (id : Nat) (st : Int) :
      Reachable s → Reachable (update_style_stage s id st)
  | qty (s : Store) (id : Nat) (a b c d : Option Int) :
      Reachable s → Reachable (update_style_quantities s id a b c d)
  | info (s : Store) (id : Nat) (b sn g c : Option String) (tq : Option Int)
      (dd : Option String) : Reachable s → Reachable (update_style_info s id b sn g c tq dd)
  | archive (s : Store) (id : Nat) : Reachable s → Reachable (delete_style s id).1
  | restore (s : Store) (id : Nat) : Reachable s → Reachable (restore_style s id).1

/-- Reachability when `restore_style` is never applied to a style whose stage
is already 13 (Dispatch); the unrestricted relation above permits that call
and with it reactivates a dispatched style. -/
inductive ReachableGuardedRestore : Store → Prop where
  | init : ReachableGuardedRestore Store.empty
  | add (s : Store) (m b sn g c : String) (tq : Option Int) (dd : Option String)
      (t : Nat) : ReachableGuardedRestore s →
      ReachableGuardedRestore (add_style s m b sn g c tq dd t).1
  | stage (s : Store) (id : Nat) (st : Int) :
      ReachableGuardedRestore s → ReachableGuardedRestore (update_style_stage s id st)
  | qty (s : Store) (id : Nat) (a b c d : Option Int) :
      ReachableGuardedRestore s → ReachableGuardedRestore (update_style_quantities s id a b c d)
  | info (s : Store) (id : Nat) (b sn g c : Option String) (tq : Option Int)
      (dd : Option String) : ReachableGuardedRestore s →
      ReachableGuardedRestore (update_style_info s id b sn g c tq dd)
  | archive (s : Store) (id : Nat) : ReachableGuardedRestore s →
      ReachableGuardedRestore (delete_style s id).1
  | restore (s : Store) (id : Nat) :
      ReachableGuardedRestore s →
      (∀ sty, s.get id = some sty → sty.stage ≠ 13) →
      ReachableGuardedRestore (restore_style s id).1

/-- Reachability when every stage update carries a stage inside [0, 13], as
the inbound interface supplies (modal select options enumerate exactly the 14
stage labels); `update_style_stage` itself stores any integer unvalidated. -/
inductive ReachableValidStage : Store → Prop where
  | init : ReachableValidStage Store.empty
  | add (s : Store) (m b sn g c : String) (tq : Option Int) (dd : Option String)
      (t : Nat) : ReachableValidStage s →
      ReachableValidStage (add_style s m b sn g c tq dd t).1
  | stage (s : Store) (id : Nat) (st : Int) :
      ReachableValidStage s → 0 ≤ st → st ≤ 13 →
      ReachableValidStage (update_style_stage s id st)
  | qty (s : Store) (id : Nat) (a b c d : Option Int) :
      ReachableValidStage s → ReachableValidStage (update_style_quantities s id a b c d)
  | info (s : Store) (id : Nat) (b sn g c : Option String) (tq : Option Int)
      (dd : Option String) : ReachableValidStage s →
      ReachableValidStage (update_style_info s id b sn g c tq dd)
  | archive (s : Store) (id : Nat) : ReachableValidStage s →
      ReachableValidStage (delete_style s id).1
  | restore (s : Store) (id : Nat) : ReachableValidStage s →
      ReachableValidStage (restore_style s id).1

/-! ### Association-list lemmas -/

theorem assocFind_mem {α : Type} {docs : List (Nat × α)} {id : Nat} {a : α}
    (h : assocFind docs id = some a) : (id, a) ∈ docs := by
  induction docs with
  | nil => simp [assocFind] at h
  | cons hd tl ih =>
      obtain ⟨k, b⟩ := hd
      by_cases hk : k = id
      · simp [assocFind, hk] at h
        subst hk h
        exact List.mem_cons_self _ _
      · simp [assocFind, hk] at h
        exact List.mem_cons_of_mem _ (ih h)

theorem mem_modifyDoc {docs : List (Nat × Style)} {id : Nat} {f : Style → Style}
    {p : Nat × Style} (hp : p ∈ modifyDoc docs id f) :
    p ∈ docs ∨ ∃ d, assocFind docs id = some d ∧ p = (id, f d) := by
  induction docs with
  | nil => simp [modifyDoc] at hp
  | cons hd tl ih =>
      obtain ⟨k, b⟩ := hd
      by_cases hk : k = id
      · subst hk
        simp only [modifyDoc, if_pos rfl] at hp
        rcases List.mem_cons.mp hp with h | h
        · exact Or.inr ⟨b, by simp [assocFind], h⟩
        · exact Or.inl (List.mem_cons_of_mem _ h)
      · simp only [modifyDoc, if_neg hk] at hp
        rcases List.mem_cons.mp hp with h | h
        · exact Or.inl (h ▸ List.mem_cons_self _ _)
        · rcases ih h with h' | ⟨d, hd, hpd⟩
          · exact Or.inl (List.mem_cons_of_mem _ h')
          · exact Or.inr ⟨d, by simp [assocFind, hk, hd], hpd⟩

theorem assocFind_modifyDoc_self {docs : List (Nat × Style)} {id : Nat}
    {d : Style} (f : Style → Style) (h : assocFind docs id = some d) :
    assocFind (modifyDoc docs id f) id = some (f d) := by
  induction docs with
  | nil => simp [assocFind] at h
  | cons hd tl ih =>
      obtain ⟨k, b⟩ := hd
      by_cases hk : k = id
      · simp [assocFind, hk] at h
        simp [modifyDoc, assocFind, hk, h]
      · simp [assocFind, hk] at h
        simp [modifyDoc, assocFind, hk, ih h]

theorem assocFind_modifyDoc_ne {docs : List (Nat × Style)} {id j : Nat}
    (f : Style → Style) (h : j ≠ id) :
    assocFind (modifyDoc docs id f) j = assocFind docs j := by
  induction docs with
  | nil => simp [modifyDoc]
  | cons hd tl ih =>
      obtain ⟨k, b⟩ := hd
      by_cases hk : k = id
      · subst hk
        have hkj : ¬(k = j) := fun hkj => h hkj.symm
        simp [modifyDoc, assocFind, hkj]
      · simp [modifyDoc, assocFind, hk, ih]

/-! ### Concrete fixtures used by witnesses and counterexamples -/

/-- The record `add_style` builds for the spec's sample merchant. -/
def demoStyle : Style :=
  { merchant := "Megha", brand := "X", style_no := "1", garment := "Kurta",
    colour := "Red", stage := 0, active := true, created_at := 0 }

/-- A store holding exactly `demoStyle` at id 1. -/
def demoStore : Store :=
  (add_style Store.empty "Megha" "X" "1" "Kurta" "Red" none none 0).1

/-- `demoStore` after archiving its only style. -/
def demoArchived : Store := (delete_style demoStore 1).1

/-- The archived form of `demoStyle`. -/
def demoArchivedStyle : Style := { demoStyle with active := false }

/-! ### Claim theorems -/

/-- C5: for a present id, `update_style_stage` sets the stage to the requested
integer and clears `active` exactly when the request is 13; for an absent id
it returns the store unchanged rather than failing. -/
theorem update_stage_spec (s : Store) (id : Nat) (ns : Int) :
    (∀ sty, s.get id = some sty →
      (update_style_stage s id ns).get id =
        some { sty with stage := ns,
                        active := if ns = 13 then false else sty.active }) ∧
    (s.get id = none → update_style_stage s id ns = s) := by
  constructor
  · intro sty h
    simp only [update_style_stage, h]
    exact assocFind_modifyDoc_self _ h
  · intro h
    simp [update_style_stage, h]

/-- Witness for C5: dispatching the demo style stores stage 13 and
deactivates it. -/
theorem update_stage_spec_witness :
    (update_style_stage demoStore 1 13).get 1 =
      some { demoStyle with stage := 13,
                            active := if (13 : Int) = 13 then false else demoStyle.active } :=
  (update_stage_spec demoStore 1 13).1 demoStyle (by decide)

/-- C6: `update_style_quantities` overwrites exactly the quantity fields that
are provided (`Option.or` keeps the old value when the argument is absent),
touches no other field of the record and no other record, and leaves the
store unchanged when the id is absent. -/
theorem update_quantities_frame (s : Store) (id : Nat)
    (st fi pa cu : Option Int) :
    (∀ sty, s.get id = some sty →
      (update_style_quantities s id st fi pa cu).get id =
        some { sty with cut_qty := cu.or sty.cut_qty,
                        stitch_qty := st.or sty.stitch_qty,
                        finish_qty := fi.or sty.finish_qty,
                        pack_qty := pa.or sty.pack_qty } ∧
      ∀ j, j ≠ id → (update_style_quantities s id st fi pa cu).get j = s.get j) ∧
    (s.get id = none → update_style_quantities s id st fi pa cu = s) := by
  constructor
  · intro sty h
    constructor
    · simp only [update_style_quantities, h]
      cases st <;> cases fi <;> cases pa <;> cases cu <;>
        exact assocFind_modifyDoc_self _ h
    · intro j hj
      simp only [update_style_quantities, h]
      exact assocFind_modifyDoc_ne _ hj
  · intro h
    simp [update_style_quantities, h]

/-- `demoStyle` with cut/finish/pack quantities recorded and stitch absent. -/
def demoQtyStyle : Style :=
  { demoStyle with cut_qty := some 1, finish_qty := some 2, pack_qty := some 3 }

/-- A store holding exactly `demoQtyStyle` at id 1. -/
def demoQtyStore : Store :=
  update_style_quantities demoStore 1 none (some 2) (some 3) (some 1)

/-- Witness for C6: passing only `stitch=5` leaves cut, finish and pack
quantities exactly as they were. -/
theorem update_quantities_frame_witness :
    (update_style_quantities demoQtyStore 1 (some 5) none none none).get 1 =
      some { demoQtyStyle with stitch_qty := some 5 } :=
  ((update_quantities_frame demoQtyStore 1 (some 5) none none none).1
    demoQtyStyle (by decide)).1

/-- C10: with the id present, `delete_style` archives and returns `true`
exactly when the style was active, returning `(s, false)` untouched otherwise;
`restore_style` is the exact mirror. -/
theorem archive_restore_spec (s : Store) (id : Nat) (sty : Style)
    (h : s.get id = some sty) :
    (sty.active = true →
      (delete_style s id).2 = true ∧
      (delete_style s id).1.get id = some { sty with active := false }) ∧
    (sty.active = false → delete_style s id = (s, false)) ∧
    (sty.active = false →
      (restore_style s id).2 = true ∧
      (restore_style s id).1.get id = some { sty with active := true }) ∧
    (sty.active = true → restore_style s id = (s, false)) := by
  refine ⟨?_, ?_, ?_, ?_⟩
  · intro ha
    simp only [delete_style, h, ha, if_true]
    exact ⟨trivial, assocFind_modifyDoc_self _ h⟩
  · intro ha
    simp [delete_style, h, ha]
  · intro ha
    simp only [restore_style, h, ha, Bool.false_eq_true, if_false]
    exact ⟨trivial, assocFind_modifyDoc_self _ h⟩
  · intro ha
    simp [restore_style, h, ha]

/-- Witness for C10: archiving the active demo style changes and reports it;
restoring the archived demo style changes and reports it. -/
theorem archive_restore_spec_witness :
    ((delete_style demoStore 1).2 = true ∧
      (delete_style demoStore 1).1.get 1 = some demoArchivedStyle) ∧
    ((restore_style demoArchived 1).2 = true ∧
      (restore_style demoArchived 1).1.get 1 =
        some { demoArchivedStyle with active := true }) :=
  ⟨(archive_restore_spec demoStore 1 demoStyle (by decide)).1 rfl,
   (archive_restore_spec demoArchived 1 demoArchivedStyle (by decide)).2.2.1 rfl⟩

/-- C8: the CSV balance is `total - qty` floored at 0 when both are positive,
and renders empty (`none`) when either side is absent or non-positive; the
spec's three examples are included. -/
theorem balance_spec (t q : Int) :
    (0 < t → 0 < q → balance (some t) (some q) = some (max (t - q) 0)) ∧
    ((t ≤ 0 ∨ q ≤ 0) → balance (some t) (some q) = none) ∧
    balance none (some q) = none ∧
    balance (some t) none = none ∧
    balance none none = none ∧
    balance (some 100) (some 30) = some 70 ∧
    balance (some 50) (some 60) = some 0 := by
  refine ⟨?_, ?_, rfl, rfl, rfl, by decide, by decide⟩
  · intro ht hq
    have hcond : ¬(t ≤ 0 ∨ q ≤ 0) := by omega
    simp only [balance, if_neg hcond]
    by_cases hb : t - q ≥ 0
    · rw [if_pos hb]
      exact congrArg some (max_eq_left hb).symm
    · rw [if_neg hb]
      exact congrArg some (max_eq_right (by omega)).symm
  · intro hle
    simp [balance, hle]

/-- Witness for C8: total 100 with stitch 30 yields balance 70. -/
theorem balance_spec_witness :
    balance (some 100) (some 30) = some (max ((100 : Int) - 30) 0) :=
  (balance_spec 100 30).1 (by decide) (by decide)

/-- C3: the (spec-modelled) `update_style_info` overwrites exactly the
provided fields, keeps every unprovided field and every other record, and is
a no-op on an absent id. -/
theorem update_info_spec (s : Store) (id : Nat) (b sn g c : Option String)
    (tq : Option Int) (dd : Option String) :
    (∀ sty, s.get id = some sty →
      (update_style_info s id b sn g c tq dd).get id =
        some { sty with brand := b.getD sty.brand,
                        style_no := sn.getD sty.style_no,
                        garment := g.getD sty.garment,
                        colour := c.getD sty.colour,
                        total_qty := tq.or sty.total_qty,
                        dispatch_date := dd.or sty.dispatch_date } ∧
      ∀ j, j ≠ id → (update_style_info s id b sn g c tq dd).get j = s.get j) ∧
    (s.get id = none → update_style_info s id b sn g c tq dd = s) := by
  constructor
  · intro sty h
    constructor
    · simp only [update_style_info, h]
      cases b <;> cases sn <;> cases g <;> cases c <;> cases tq <;> cases dd <;>
        exact assocFind_modifyDoc_self _ h
    · intro j hj
      simp only [update_style_info, h]
      exact assocFind_modifyDoc_ne _ hj
  · intro h
    simp [update_style_info, h]

/-- Witness for C3: editing only the brand and the total quantity leaves the
other fields of the demo style unchanged. -/
theorem update_info_spec_witness :
    (update_style_info demoStore 1 (some "Y") none none none (some 40) none).get 1 =
      some { demoStyle with brand := "Y", total_qty := some 40 } :=
  ((update_info_spec demoStore 1 (some "Y") none none none (some 40) none).1
    demoStyle (by decide)).1

/-- The per-request keep test of `save_bulk_update`: the style must exist and
its current stage must differ from the requested one. -/
def wantsChange (s : Store) (p : Nat × Int) : Bool :=
  match s.get p.1 with
  | none => false
  | some sty => decide (sty.stage ≠ p.2)

theorem bulk_diff_eq_filter (s : Store) (reqs : List (Nat × Int)) :
    bulk_diff s reqs =
      (reqs.filter (wantsChange s),
       reqs.filter (fun p => wantsChange s p && decide (p.2 ∈ flowStages))) := by
  induction reqs with
  | nil => rfl
  | cons hd tl ih =>
      obtain ⟨i, n⟩ := hd
      simp only [bulk_diff, ih]
      rcases hget : s.get i with _ | sty
      · simp [List.filter, wantsChange, hget]
      · by_cases hstage : sty.stage = n
        · simp [List.filter, wantsChange, hget, hstage]
        · by_cases hflow : n ∈ flowStages
          · simp [List.filter, wantsChange, hget, hstage, hflow]
          · simp [List.filter, wantsChange, hget, hstage, hflow]

/-- Styles 1, 2, 3 for one merchant, all currently at stage 2 (the spec's
bulk-diff example). -/
def bulkStore : Store :=
  update_style_stage (update_style_stage (update_style_stage
    ((add_style ((add_style ((add_style Store.empty
      "M" "B" "1" "G" "C" none none 0).1)
      "M" "B" "2" "G" "C" none none 1).1)
      "M" "B" "3" "G" "C" none none 2).1)
    1 2) 2 2) 3 2

/-- C7: the bulk diff keeps a requested change exactly when the style exists
and its stage differs from the request, and marks for quantity collection
exactly the kept changes whose new stage is a flow stage; the spec's
`{1:2, 2:5, 3:9}` example evaluates as stated. -/
theorem bulk_diff_spec (s : Store) (reqs : List (Nat × Int)) (id : Nat) (ns : Int) :
    ((id, ns) ∈ (bulk_diff s reqs).1 ↔
      (id, ns) ∈ reqs ∧ ∃ sty, s.get id = some sty ∧ sty.stage ≠ ns) ∧
    ((id, ns) ∈ (bulk_diff s reqs).2 ↔
      (id, ns) ∈ (bulk_diff s reqs).1 ∧ ns ∈ flowStages) ∧
    (bulk_diff bulkStore [(1, 2), (2, 5), (3, 9)]).1 = [(2, 5), (3, 9)] ∧
    (bulk_diff bulkStore [(1, 2), (2, 5), (3, 9)]).2 = [(3, 9)] := by
  refine ⟨?_, ?_, by decide, by decide⟩
  · rw [bulk_diff_eq_filter]
    simp only [List.mem_filter]
    constructor
    · rintro ⟨hin, hb⟩
      refine ⟨hin, ?_⟩
      rcases hget : s.get id with _ | sty
      · simp [wantsChange, hget] at hb
      · refine ⟨sty, rfl, ?_⟩
        simpa [wantsChange, hget] using hb
    · rintro ⟨hin, sty, hget, hne⟩
      exact ⟨hin, by simp [wantsChange, hget, hne]⟩
  · rw [bulk_diff_eq_filter]
    simp only [List.mem_filter, Bool.and_eq_true, decide_eq_true_eq]
    tauto

/-- C9: blank or unparseable quantity input parses to "not provided" (never
zero), and the subsequent quantity update leaves the record fully unchanged
while still completing normally. -/
theorem toInt_blank_unparseable (v : Option String)
    (hv : v = none ∨ ∃ s, v = some s ∧ (pyStrip s = [] ∨ pyParseInt s = none)) :
    toInt v = none ∧
    ∀ (s : Store) (id : Nat) (sty : Style), s.get id = some sty →
      (update_style_quantities s id (toInt v) none none none).get id = some sty := by
  have h0 : toInt v = none := by
    rcases hv with rfl | ⟨s, rfl, hs⟩
    · rfl
    · rcases hs with hb | hp
      · simp [toInt, hb]
      · by_cases hb : pyStrip s = []
        · simp [toInt, hb]
        · simp [toInt, hb, hp]
  refine ⟨h0, ?_⟩
  intro s id sty h
  rw [h0]
  simp only [update_style_quantities, h]
  exact assocFind_modifyDoc_self _ h

/-- Witness for C9: the unparseable input "abc" is treated as not provided and
a stitch-only update with it leaves the stored quantities untouched. -/
theorem toInt_blank_unparseable_witness :
    toInt (some "abc") = none ∧
    (update_style_quantities demoQtyStore 1 (toInt (some "abc")) none none none).get 1 =
      some demoQtyStyle :=
  ⟨(toInt_blank_unparseable (some "abc") (Or.inr ⟨"abc", rfl, Or.inr (by decide)⟩)).1,
   (toInt_blank_unparseable (some "abc") (Or.inr ⟨"abc", rfl, Or.inr (by decide)⟩)).2
     demoQtyStore 1 demoQtyStyle (by decide)⟩

/-- Every document of a store reachable without restoring a dispatched style
satisfies: stage 13 implies inactive. -/
theorem guarded_restore_inv (s : Store) (h : ReachableGuardedRestore s) :
    ∀ p ∈ s.docs, p.2.stage = 13 → p.2.active = false := by
  induction h with
  | init =>
      intro p hp
      simp [Store.empty] at hp
  | add s m b sn g c tq dd t hs ih =>
      intro p hp h13
      simp only [add_style, List.mem_append, List.mem_singleton] at hp
      rcases hp with hp | hp
      · exact ih p hp h13
      · subst hp
        simp at h13
  | stage s id st hs ih =>
      intro p hp h13
      rcases hget : s.get id with _ | d
      · simp only [update_style_stage, hget] at hp
        exact ih p hp h13
      · simp only [update_style_stage, hget] at hp
        rcases mem_modifyDoc hp with hp' | ⟨d', hfind, rfl⟩
        · exact ih p hp' h13
        · simp only at h13 ⊢
          simp [h13]
  | qty s id a b c d hs ih =>
      intro p hp h13
      rcases hget : s.get id with _ | e
      · simp only [update_style_quantities, hget] at hp
        exact ih p hp h13
      · simp only [update_style_quantities, hget] at hp
        rcases mem_modifyDoc hp with hp' | ⟨d', hfind, rfl⟩
        · exact ih p hp' h13
        · simp only at h13 ⊢
          exact ih (id, d') (assocFind_mem hfind) h13
  | info s id b sn g c tq dd hs ih =>
      intro p hp h13
      rcases hget : s.get id with _ | e
      · simp only [update_style_info, hget] at hp
        exact ih p hp h13
      · simp only [update_style_info, hget] at hp
        rcases mem_modifyDoc hp with hp' | ⟨d', hfind, rfl⟩
        · exact ih p hp' h13
        · simp only at h13 ⊢
          exact ih (id, d') (assocFind_mem hfind) h13
  | archive s id hs ih =>
      intro p hp h13
      rcases hget : s.get id with _ | d
      · simp only [delete_style, hget] at hp
        exact ih p hp h13
      · by_cases hact : d.active = true
        · simp only [delete_style, hget, hact, if_true] at hp
          rcases mem_modifyDoc hp with hp' | ⟨d', hfind, rfl⟩
          · exact ih p hp' h13
          · rfl
        · simp only [delete_style, hget, if_neg hact] at hp
          exact ih p hp h13
  | restore s id hs hguard ih =>
      intro p hp h13
      rcases hget : s.get id with _ | d
      · simp only [restore_style, hget] at hp
        exact ih p hp h13
      · by_cases hact : d.active = true
        · simp only [restore_style, hget, hact, if_true] at hp
          exact ih p hp h13
        · simp only [restore_style, hget, if_neg hact] at hp
          rcases mem_modifyDoc hp with hp' | ⟨d', hfind, rfl⟩
          · exact ih p hp' h13
          · simp only at h13
            exact absurd h13 (hguard d' hfind)

/-- `demoStore` after dispatching its style and then restoring it: the style
sits at stage 13 yet is active again. -/
def dispatchRestored : Store :=
  (restore_style (update_style_stage demoStore 1 13) 1).1

/-- C1 counterexample: restoring a dispatched style is a reachable sequence
(add, stage 13, restore) after which stage 13 coexists with active = true. -/
theorem restore_reactivates_dispatched :
    Reachable dispatchRestored ∧
    (dispatchRestored.get 1).map Style.stage = some 13 ∧
    (dispatchRestored.get 1).map Style.active = some true :=
  ⟨Reachable.restore _ 1 (Reachable.stage _ 1 13
      (Reachable.add _ "Megha" "X" "1" "Kurta" "Red" none none 0 Reachable.init)),
   by decide, by decide⟩

/-- C1 (amended): in every store state reachable without applying restore to a
style whose stage is already 13, any style at stage 13 is inactive. -/
theorem stage13_inactive (s : Store) (h : ReachableGuardedRestore s)
    (id : Nat) (sty : Style) (hget : s.get id = some sty)
    (h13 : sty.stage = 13) : sty.active = false :=
  guarded_restore_inv s h (id, sty) (assocFind_mem hget) h13

/-- The dispatched form of `demoStyle`. -/
def demoDispatched : Style := { demoStyle with stage := 13, active := false }

/-- Witness for C1: the store obtained by adding the demo style and
dispatching it is guarded-reachable and its stage-13 style is inactive. -/
theorem stage13_inactive_witness : demoDispatched.active = false :=
  stage13_inactive (update_style_stage demoStore 1 13)
    (ReachableGuardedRestore.stage _ 1 13
      (ReachableGuardedRestore.add _ "Megha" "X" "1" "Kurta" "Red" none none 0
        ReachableGuardedRestore.init))
    1 demoDispatched (by decide) (by decide)

/-- Every document of a store reachable with only in-range stage requests has
its stage inside [0, 13]. -/
theorem valid_stage_inv (s : Store) (h : ReachableValidStage s) :
    ∀ p ∈ s.docs, 0 ≤ p.2.stage ∧ p.2.stage ≤ 13 := by
  induction h with
  | init =>
      intro p hp
      simp [Store.empty] at hp
  | add s m b sn g c tq dd t hs ih =>
      intro p hp
      simp only [add_style, List.mem_append, List.mem_singleton] at hp
      rcases hp with hp | hp
      · exact ih p hp
      · subst hp
        simp
  | stage s id st hs h0 h13 ih =>
      intro p hp
      rcases hget : s.get id with _ | d
      · simp only [update_style_stage, hget] at hp
        exact ih p hp
      · simp only [update_style_stage, hget] at hp
        rcases mem_modifyDoc hp with hp' | ⟨d', hfind, rfl⟩
        · exact ih p hp'
        · exact ⟨h0, h13⟩
  | qty s id a b c d hs ih =>
      intro p hp
      rcases hget : s.get id with _ | e
      · simp only [update_style_quantities, hget] at hp
        exact ih p hp
      · simp only [update_style_quantities, hget] at hp
        rcases mem_modifyDoc hp with hp' | ⟨d', hfind, rfl⟩
        · exact ih p hp'
        · exact ih (id, d') (assocFind_mem hfind)
  | info s id b sn g c tq dd hs ih =>
      intro p hp
      rcases hget : s.get id with _ | e
      · simp only [update_style_info, hget] at hp
        exact ih p hp
      · simp only [update_style_info, hget] at hp
        rcases mem_modifyDoc hp with hp' | ⟨d', hfind, rfl⟩
        · exact ih p hp'
        · exact ih (id, d') (assocFind_mem hfind)
  | archive s id hs ih =>
      intro p hp
      rcases hget : s.get id with _ | d
      · simp only [delete_style, hget] at hp
        exact ih p hp
      · by_cases hact : d.active = true
        · simp only [delete_style, hget, hact, if_true] at hp
          rcases mem_modifyDoc hp with hp' | ⟨d', hfind, rfl⟩
          · exact ih p hp'
          · exact ih (id, d') (assocFind_mem hfind)
        · simp only [delete_style, hget, if_neg hact] at hp
          exact ih p hp
  | restore s id hs ih =>
      intro p hp
      rcases hget : s.get id with _ | d
      · simp only [restore_style, hget] at hp
        exact ih p hp
      · by_cases hact : d.active = true
        · simp only [restore_style, hget, hact, if_true] at hp
          exact ih p hp
        · simp only [restore_style, hget, if_neg hact] at hp
          rcases mem_modifyDoc hp with hp' | ⟨d', hfind, rfl⟩
          · exact ih p hp'
          · exact ih (id, d') (assocFind_mem hfind)

/-- `demoStore` after an unvalidated stage request of 14. -/
def outOfRange : Store := update_style_stage demoStore 1 14

/-- C2 counterexample: `update_style_stage` stores any integer, so the
reachable sequence (add, stage 14) leaves a style at stage 14 ∉ [0, 13]. -/
theorem update_stage_stores_out_of_range :
    Reachable outOfRange ∧
    (outOfRange.get 1).map Style.stage = some 14 ∧
    ¬((14 : Int) ≤ 13) :=
  ⟨Reachable.stage _ 1 14
      (Reachable.add _ "Megha" "X" "1" "Kurta" "Red" none none 0 Reachable.init),
   by decide, by decide⟩

/-- C2 (amended): when every stage update carries a stage inside [0, 13] — as
the inbound interface supplies — every style of every reachable store state
has its stage inside [0, 13]; creation itself sets stage 0. -/
theorem stage_in_range (s : Store) (h : ReachableValidStage s)
    (id : Nat) (sty : Style) (hget : s.get id = some sty) :
    0 ≤ sty.stage ∧ sty.stage ≤ 13 :=
  valid_stage_inv s h (id, sty) (assocFind_mem hget)

/-- Witness for C2: the dispatched demo style, reached through in-range
requests only, has its stage inside the range. -/
theorem stage_in_range_witness :
    0 ≤ demoDispatched.stage ∧ demoDispatched.stage ≤ 13 :=
  stage_in_range (update_style_stage demoStore 1 13)
    (ReachableValidStage.stage _ 1 13
      (ReachableValidStage.add _ "Megha" "X" "1" "Kurta" "Red" none none 0
        ReachableValidStage.init) (by decide) (by decide))
    1 demoDispatched (by decide)

/-- C4 counterexample: with an empty style store — every merchant has zero
active styles — a human usergroup member is still a reminder target, for any
way of reading a merchant identity off the user id. -/
theorem reminder_targets_ignore_styles :
    ¬ (∀ (st : Store) (ids : List String) (dir : List (String × Member))
        (mo : String → String) (uid : String),
        uid ∈ reminderTargets ids dir →
        ∃ p ∈ st.docs, p.2.merchant = mo uid ∧ p.2.active = true) := by
  intro hclaim
  obtain ⟨p, hp, -⟩ :=
    hclaim Store.empty ["U1"] [("U1", ⟨false, false⟩)] (fun u => u) "U1" (by decide)
  simp [Store.empty] at hp

/-- C4 (amended): a user id is a reminder target iff it belongs to the
merchant usergroup and the directory lists it as neither deleted nor a bot;
the style store plays no part, so merchants with zero active styles are not
excluded. -/
theorem reminderTargets_mem (ids : List String) (dir : List (String × Member))
    (uid : String) :
    uid ∈ reminderTargets ids dir ↔
      uid ∈ ids ∧ ∃ m, memberFind dir uid = some m ∧
        m.deleted = false ∧ m.is_bot = false := by
  rcases ids with _ | ⟨a, tl⟩
  · simp [reminderTargets]
  · unfold reminderTargets
    rw [if_neg (by simp), List.mem_filter]
    constructor
    · rintro ⟨hin, hb⟩
      refine ⟨hin, ?_⟩
      rcases hm : memberFind dir uid with _ | m
      · rw [hm] at hb
        cases hb
      · rw [hm] at hb
        simp only [Bool.and_eq_true, Bool.not_eq_true'] at hb
        exact ⟨m, rfl, hb.1, hb.2⟩
    · rintro ⟨hin, m, hm, hd, hbot⟩
      exact ⟨hin, by simp [hm, hd, hbot]⟩

end Garment

